import Mathlib

/-!
Verification of the payment-event ingestion and ledger-consistency engine of
the richlist backend.

Shallow embedding of:
- the leaderboard service (Entry schema, addEntry upsert, getLeaderboard
  projection sorted by createdAt descending with lat/lng denormalization);
- the older leaderboard service variant that sorts by amount descending;
- the ProcessedEvent dedup collection (unique eventId);
- the Stripe webhook handler in index.js (signature check, dedup lookup,
  checkout.session.completed mutation, processed-event record, HTTP status).

Monetary amounts are JavaScript numbers computed as amount_total / 100 from an
integer number of minor units; they are modelled as rationals. Timestamps
(Date.now) are modelled as naturals. Storage faults are injected explicitly via
a Faults record, since the services catch and log storage errors.
-/

namespace Richlist

/-- GeoJSON point as persisted in the position field of the entry schema:
coordinates is an array holding longitude then latitude. -/
structure GeoPosition where
  coordinates : List ℚ
deriving Repr, DecidableEq

/-- Entry schema of the leaderboard service (part_001): name, amount, message,
locationLabel, optional position, createdAt (defaulted to Date.now at creation),
and the unique stripeCustomerID aggregation key. -/
structure Entry where
  name : String
  amount : ℚ
  message : String
  locationLabel : String
  position : Option GeoPosition
  createdAt : ℕ
  stripeCustomerID : String
deriving Repr, DecidableEq

/-- Argument of addEntry as constructed by the webhook handler. -/
structure EntryData where
  name : String
  amount : ℚ
  stripeCustomerID : String
  locationLabel : String
  message : String
  position : Option GeoPosition
deriving Repr, DecidableEq

/-- Entry.findOne on the stripeCustomerID unique key. -/
def findEntry (entries : List Entry) (cid : String) : Option Entry :=
  entries.find? (fun e => e.stripeCustomerID == cid)

/-- In-place save of the matched document on top-up (part_001 lines 44-51):
the stored amount becomes the in-memory amount plus the incoming amount, and
message is overwritten when the incoming message is truthy; name,
locationLabel, position and createdAt are not touched. -/
def topUpdate (d : EntryData) (e : Entry) : Entry :=
  if e.stripeCustomerID == d.stripeCustomerID then
    { e with
      amount := e.amount + d.amount,
      message := if d.message ≠ "" then d.message else e.message }
  else e

/-- Entry.create on first contribution (part_001 line 58): all fields come
from the incoming data and createdAt defaults to Date.now. -/
def newEntryOf (d : EntryData) (now : ℕ) : Entry :=
  { name := d.name, amount := d.amount, message := d.message,
    locationLabel := d.locationLabel, position := d.position,
    createdAt := now, stripeCustomerID := d.stripeCustomerID }

/-- addEntry of the leaderboard service (part_001 lines 40-63): find the entry
for the stripeCustomerID; if present, save the topped-up document in place; if
absent, create a new entry from the incoming data. -/
def addEntry (entries : List Entry) (d : EntryData) (now : ℕ) : List Entry :=
  match findEntry entries d.stripeCustomerID with
  | some _ => entries.map (topUpdate d)
  | none => entries ++ [newEntryOf d now]

/-- Stable insertion into a list sorted descending by key: the new element goes
after every element whose key is strictly greater or equal, modelling a sort
that orders only by the given key and leaves ties in storage order. -/
def insertByDesc {α β : Type} [LinearOrder β] (key : α → β) (a : α) :
    List α → List α
  | [] => [a]
  | b :: bs => if key a < key b then b :: insertByDesc key a bs else a :: b :: bs

/-- Stable sort, descending by key: model of a Mongo sort on a single key with
ties left in storage (insertion) order. -/
def sortByDesc {α β : Type} [LinearOrder β] (key : α → β) : List α → List α
  | [] => []
  | a :: as => insertByDesc key a (sortByDesc key as)

/-- Row returned by getLeaderboard (part_001): the entry spread together with
top-level lat and lng denormalized from position.coordinates. -/
structure Row where
  entry : Entry
  lat : Option ℚ
  lng : Option ℚ
deriving Repr, DecidableEq

/-- Mapping of one entry to its leaderboard row (part_001 lines 27-31):
lat is coordinates[1] and lng is coordinates[0] when position is present,
undefined otherwise. -/
def toRow (e : Entry) : Row :=
  { entry := e,
    lat := match e.position with
           | some p => p.coordinates.get? 1
           | none => none,
    lng := match e.position with
           | some p => p.coordinates.get? 0
           | none => none }

/-- getLeaderboard of the leaderboard service (part_001 lines 19-37): the find
call may fail with a storage error, modelled by the Except argument; on success
entries are sorted by createdAt descending (newest first) and mapped to rows;
any error is caught, logged and turned into the empty list. -/
def getLeaderboard (findResult : Except String (List Entry)) : List Row :=
  match findResult with
  | .ok entries => (sortByDesc (fun e => e.createdAt) entries).map toRow
  | .error _ => []

/-- Entry schema of the older leaderboard service variant embedded in the
richlist backend: name, amount, unique stripeCustomerID, link, message. -/
structure EntryV1 where
  name : String
  amount : ℚ
  stripeCustomerID : String
  link : String
  message : String
deriving Repr, DecidableEq

/-- getLeaderboard of the older service variant: Entry.find() sorted by amount
descending, ties left in storage order. -/
def getLeaderboardByAmount (entries : List EntryV1) : List EntryV1 :=
  sortByDesc (fun e => e.amount) entries

/-- Metadata attached to a checkout session by the submit route: name,
stripeCustomerID, locationLabel, optional message, optional lat and lng
(absent or empty strings are modelled as none, the parsed values as
rationals). -/
structure Metadata where
  name : String
  stripeCustomerID : String
  locationLabel : String
  message : Option String
  lat : Option ℚ
  lng : Option ℚ
deriving Repr, DecidableEq

/-- Checkout session object carried by a checkout.session.completed event:
amount_total is an integer amount in minor units (pence). -/
structure Session where
  amount_total : ℕ
  metadata : Metadata
deriving Repr, DecidableEq

/-- Stripe event as decoded by constructEvent: id, type and the session. -/
structure StripeEvent where
  id : String
  type : String
  session : Session
deriving Repr, DecidableEq

/-- Injected storage faults: failure of the ProcessedEvent.findOne dedup
lookup, failure of the storage operations inside addEntry (caught and logged
there), and failure of ProcessedEvent.create (caught and logged in the
handler). -/
structure Faults where
  dedupLookupFault : Bool
  addEntryFault : Bool
  recordFault : Bool
deriving Repr, DecidableEq

/-- Fault-free storage. -/
def noFaults : Faults := ⟨false, false, false⟩

/-- Persistent state: the contribution entries and the processed event ids. -/
structure DB where
  entries : List Entry
  processed : List String
deriving Repr, DecidableEq

/-- Result of one webhook call: the new state and the HTTP status code. -/
structure WebhookResult where
  db : DB
  status : ℕ
deriving Repr, DecidableEq

/-- Construction of the addEntry argument from a session (index.js lines
64-79): amount is amount_total / 100, message defaults to the empty string,
and position is set to the GeoJSON point [lng, lat] exactly when both lat and
lng are present in the metadata. -/
def entryDataOfSession (s : Session) : EntryData :=
  { name := s.metadata.name,
    amount := (s.amount_total : ℚ) / 100,
    stripeCustomerID := s.metadata.stripeCustomerID,
    locationLabel := s.metadata.locationLabel,
    message := s.metadata.message.getD "",
    position :=
      match s.metadata.lat, s.metadata.lng with
      | some la, some ln => some ⟨[ln, la]⟩
      | _, _ => none }

/-- The webhook handler (index.js lines 30-100). Control flow of the source:
signature verification failure gives 400; a failing dedup lookup gives 500; a
hit in the dedup collection gives 200 with no mutation; otherwise, for a
checkout.session.completed event, addEntry is invoked (a storage failure inside
addEntry is caught and logged there, leaving the ledger unchanged, and the
handler also swallows any error from the call); other event types are skipped;
finally ProcessedEvent.create records the event id (its failure is caught and
logged) and the handler answers 200. -/
def webhook (f : Faults) (db : DB) (sigOk : Bool) (ev : StripeEvent)
    (now : ℕ) : WebhookResult :=
  if !sigOk then ⟨db, 400⟩
  else if f.dedupLookupFault then ⟨db, 500⟩
  else if db.processed.contains ev.id then ⟨db, 200⟩
  else
    let entries :=
      if ev.type == "checkout.session.completed" then
        if f.addEntryFault then db.entries
        else addEntry db.entries (entryDataOfSession ev.session) now
      else db.entries
    let processed :=
      if f.recordFault then db.processed else db.processed ++ [ev.id]
    ⟨⟨entries, processed⟩, 200⟩

/-- One fault-free delivery of an event with a valid signature. -/
def deliver (db : DB) (ev : StripeEvent) (now : ℕ) : DB :=
  (webhook noFaults db true ev now).db

/-- Sequential delivery of the same event once per listed timestamp. -/
def deliverTimes (db : DB) (ev : StripeEvent) : List ℕ → DB
  | [] => db
  | t :: ts => deliverTimes (deliver db ev t) ev ts

/-- GET /api/leaderboard (index.js lines 159-167): the route answers 500 only
when the service call throws; getLeaderboard is total because it catches its
storage errors, so the call is always an ok value and the route answers 200
with the list. -/
def apiLeaderboard (findResult : Except String (List Entry)) :
    ℕ × List Row :=
  match (Except.ok (getLeaderboard findResult) : Except String (List Row)) with
  | .ok list => (200, list)
  | .error _ => (500, [])

/-- Uniqueness of the aggregation key across the ledger, as enforced by the
unique index on stripeCustomerID. -/
def uniqueKeys (entries : List Entry) : Prop :=
  List.Pairwise (fun a b => a.stripeCustomerID ≠ b.stripeCustomerID) entries

/-- States reachable from the empty database by webhook calls with arbitrary
signatures, events, timestamps and injected storage faults. -/
inductive Reach : DB → Prop
  | init : Reach ⟨[], []⟩
  | step (f : Faults) (sigOk : Bool) (ev : StripeEvent) (now : ℕ) {db : DB} :
      Reach db → Reach (webhook f db sigOk ev now).db

/-- Program counter and in-memory document of one in-flight top-up execution of
addEntry (part_001 lines 42-51): findOne loads the stored amount into the
in-memory document, and save later writes back localAmount + delta; the two
storage round trips are separate, non-atomic steps. -/
structure TopUpThread where
  pc : ℕ
  localAmount : ℚ
deriving Repr, DecidableEq

/-- One storage round trip of a top-up execution: at pc 0 the findOne read, at
pc 1 the save write of localAmount + delta; afterwards the execution is done
and leaves the stored amount unchanged. -/
def topUpStep (delta : ℚ) (stored : ℚ) (t : TopUpThread) :
    ℚ × TopUpThread :=
  if t.pc = 0 then (stored, ⟨1, stored⟩)
  else if t.pc = 1 then (t.localAmount + delta, ⟨2, t.localAmount⟩)
  else (stored, t)

/-- Interleaved execution of two concurrent top-ups for the same payer, with
amounts a and b: the schedule picks, round trip by round trip, which execution
performs its next storage operation (true for the first). -/
def runSchedule (a b : ℚ) :
    List Bool → ℚ × TopUpThread × TopUpThread → ℚ × TopUpThread × TopUpThread
  | [], st => st
  | c :: rest, (stored, t1, t2) =>
      if c then
        let p := topUpStep a stored t1
        runSchedule a b rest (p.1, p.2, t2)
      else
        let p := topUpStep b stored t2
        runSchedule a b rest (p.1, t1, p.2)

/-- Stored amount of the entry after both concurrent top-ups ran to completion
under the given schedule, starting from the stored amount init. -/
def finalAmount (a b init : ℚ) (sched : List Bool) : ℚ :=
  (runSchedule a b sched (init, ⟨0, 0⟩, ⟨0, 0⟩)).1

/-- Concrete confirmation event used to evaluate the handler. -/
def evC1 : StripeEvent :=
  ⟨"evt_1", "checkout.session.completed",
    ⟨1000, ⟨"Alice", "cus_1", "London", none, none, none⟩⟩⟩

/-- C1: the claim states that a failure of the step-2 ledger mutation leaves no
ProcessedEventRecord and a non-200 response. The code instead catches and logs
the addEntry storage failure, records the event as processed anyway, and
answers 200: at a fresh confirmation event delivered to the empty database with
a failing Contribution Ledger write, the ledger is unchanged, the event id is
recorded, and the status is 200. -/
theorem addEntry_failure_still_acked_and_recorded :
    webhook ⟨false, true, false⟩ ⟨[], []⟩ true evC1 0 =
      ⟨⟨[], ["evt_1"]⟩, 200⟩ := by
  decide

/-- C3: the top-up is a read-then-write of the in-memory total, not an atomic
storage-layer add. Under the interleaving where both executions perform their
findOne read before either save write, the first increment is lost: with
amounts 5 and 7 over a stored total of 100 the final total is 107, not 112,
while the fully sequential schedule does give 112. -/
theorem topUp_lost_update :
    finalAmount 5 7 100 [true, false, true, false] = 107 ∧
    finalAmount 5 7 100 [true, true, false, false] = 112 ∧
    (107 : ℚ) ≠ 100 + 5 + 7 := by
  refine ⟨?_, ?_, by norm_num⟩ <;>
    · simp [finalAmount, runSchedule, topUpStep]
      norm_num

/-- C7: HTTP contract of the webhook handler: 400 exactly on signature
verification failure, 500 exactly when the dedup lookup fails with a storage
error, and 200 in every remaining case, which covers both a fully handled
event and an already seen one. -/
theorem webhook_http_contract (f : Faults) (db : DB) (sigOk : Bool)
    (ev : StripeEvent) (now : ℕ) :
    ((webhook f db sigOk ev now).status = 400 ↔ sigOk = false) ∧
    ((webhook f db sigOk ev now).status = 500 ↔
      sigOk = true ∧ f.dedupLookupFault = true) ∧
    ((webhook f db sigOk ev now).status = 200 ↔
      sigOk = true ∧ f.dedupLookupFault = false) := by
  cases sigOk <;> cases hf : f.dedupLookupFault <;>
    by_cases hc : ev.id ∈ db.processed <;>
      simp [webhook, hf, hc]

/-- C9: getLeaderboard catches every storage error internally and returns the
empty list, so the leaderboard route always answers 200 with a JSON array; a
read failure is indistinguishable from an empty leaderboard. -/
theorem leaderboard_swallows_errors :
    (∀ fr : Except String (List Entry), (apiLeaderboard fr).1 = 200) ∧
    (∀ msg : String, getLeaderboard (.error msg) = []) ∧
    (∀ msg : String, apiLeaderboard (.error msg) = apiLeaderboard (.ok [])) :=
  ⟨fun _ => rfl, fun _ => rfl, fun _ => rfl⟩

/-- Delivery of an event whose id is already recorded acknowledges with 200
and changes nothing. -/
theorem webhook_of_mem {db : DB} {ev : StripeEvent} (t : ℕ)
    (h : ev.id ∈ db.processed) :
    webhook noFaults db true ev t = ⟨db, 200⟩ := by
  simp [webhook, noFaults, h]

/-- State form of webhook_of_mem. -/
theorem deliver_eq_of_mem {db : DB} {ev : StripeEvent} {t : ℕ}
    (h : ev.id ∈ db.processed) : deliver db ev t = db := by
  simp [deliver, webhook_of_mem t h]

/-- A fault-free delivery always leaves the event id recorded. -/
theorem mem_after_deliver (db : DB) (ev : StripeEvent) (t : ℕ) :
    ev.id ∈ (deliver db ev t).processed := by
  by_cases h : ev.id ∈ db.processed
  · rw [deliver_eq_of_mem h]; exact h
  · simp [deliver, webhook, noFaults, h]

/-- Redeliveries of an already recorded event change nothing, in any number. -/
theorem deliverTimes_of_mem {db : DB} {ev : StripeEvent} (ts : List ℕ)
    (h : ev.id ∈ db.processed) : deliverTimes db ev ts = db := by
  induction ts with
  | nil => rfl
  | cons t ts ih =>
      show deliverTimes (deliver db ev t) ev ts = db
      rw [deliver_eq_of_mem h]
      exact ih

/-- One fault-free delivery keeps at most one dedup record for the event. -/
theorem count_processed_after (db : DB) (ev : StripeEvent) (t : ℕ)
    (h : db.processed.count ev.id ≤ 1) :
    (deliver db ev t).processed.count ev.id ≤ 1 := by
  by_cases hm : ev.id ∈ db.processed
  · rw [deliver_eq_of_mem hm]; exact h
  · have h0 : db.processed.count ev.id = 0 :=
      List.count_eq_zero_of_not_mem hm
    simp [deliver, webhook, noFaults, hm, h0]

/-- C2: idempotence of sequential delivery. Delivering the same event at one
or more timestamps gives exactly the state of delivering it once, the dedup
ledger keeps at most one record for the event id (assuming at most one before,
as the unique index guarantees), and a delivery that finds an existing record
answers 200 without any mutation. -/
theorem webhook_idempotent (db : DB) (ev : StripeEvent) (t : ℕ) (ts : List ℕ)
    (hcount : db.processed.count ev.id ≤ 1) :
    deliverTimes db ev (t :: ts) = deliver db ev t ∧
    (deliverTimes db ev (t :: ts)).processed.count ev.id ≤ 1 ∧
    (ev.id ∈ db.processed → webhook noFaults db true ev t = ⟨db, 200⟩) := by
  have h1 : deliverTimes db ev (t :: ts) = deliver db ev t := by
    show deliverTimes (deliver db ev t) ev ts = deliver db ev t
    exact deliverTimes_of_mem ts (mem_after_deliver db ev t)
  refine ⟨h1, ?_, fun h => webhook_of_mem t h⟩
  rw [h1]
  exact count_processed_after db ev t hcount

/-- Witness for C2: three deliveries of the concrete event to the empty
database equal one delivery. -/
theorem webhook_idempotent_witness :
    ((⟨[], []⟩ : DB).processed.count evC1.id ≤ 1) ∧
    (deliverTimes ⟨[], []⟩ evC1 [0, 1, 2] = deliver ⟨[], []⟩ evC1 0 ∧
     (deliverTimes ⟨[], []⟩ evC1 [0, 1, 2]).processed.count evC1.id ≤ 1 ∧
     (evC1.id ∈ (⟨[], []⟩ : DB).processed →
       webhook noFaults ⟨[], []⟩ true evC1 0 = ⟨⟨[], []⟩, 200⟩)) :=
  ⟨by decide, webhook_idempotent ⟨[], []⟩ evC1 0 [1, 2] (by decide)⟩

/-- Shared helper: a fault-free delivery of a fresh confirmation event for an
unseen payer appends exactly the entry created from the session data. -/
theorem webhook_fresh_entries (db : DB) (ev : StripeEvent) (now : ℕ)
    (htype : ev.type = "checkout.session.completed")
    (hfresh : ev.id ∉ db.processed)
    (hnew : findEntry db.entries ev.session.metadata.stripeCustomerID = none) :
    (webhook noFaults db true ev now).db.entries =
      db.entries ++ [newEntryOf (entryDataOfSession ev.session) now] := by
  have hnew2 :
      findEntry db.entries (entryDataOfSession ev.session).stripeCustomerID
        = none := hnew
  simp [webhook, noFaults, hfresh, htype, addEntry, hnew2]

/-- C5: an event for a previously unseen payerIdentity appends exactly one new
entry, whose amount is amount_total / 100 and whose display metadata comes
from the event, and the handler answers 200. -/
theorem newPayer_creation (db : DB) (ev : StripeEvent) (now : ℕ)
    (htype : ev.type = "checkout.session.completed")
    (hfresh : ev.id ∉ db.processed)
    (hnew : findEntry db.entries ev.session.metadata.stripeCustomerID = none) :
    (webhook noFaults db true ev now).db.entries =
      db.entries ++
        [{ name := ev.session.metadata.name,
           amount := (ev.session.amount_total : ℚ) / 100,
           message := ev.session.metadata.message.getD "",
           locationLabel := ev.session.metadata.locationLabel,
           position :=
             match ev.session.metadata.lat, ev.session.metadata.lng with
             | some la, some ln => some ⟨[ln, la]⟩
             | _, _ => none,
           createdAt := now,
           stripeCustomerID := ev.session.metadata.stripeCustomerID }] ∧
    (webhook noFaults db true ev now).status = 200 := by
  constructor
  · rw [webhook_fresh_entries db ev now htype hfresh hnew]
    simp [newEntryOf, entryDataOfSession]
  · simp [webhook, noFaults, hfresh]

/-- Concrete confirmation event with coordinates for a fresh payer. -/
def evC5 : StripeEvent :=
  ⟨"evt_5", "checkout.session.completed",
    ⟨2500, ⟨"Bob", "cus_5", "Paris", some "hello", some 10, some 20⟩⟩⟩

/-- Witness for C5 at a concrete fresh payer event. -/
theorem newPayer_creation_witness :
    (evC5.type = "checkout.session.completed" ∧
     evC5.id ∉ (⟨[], []⟩ : DB).processed ∧
     findEntry (⟨[], []⟩ : DB).entries evC5.session.metadata.stripeCustomerID
       = none) ∧
    ((webhook noFaults ⟨[], []⟩ true evC5 3).db.entries =
      [] ++
        [{ name := "Bob",
           amount := ((2500 : ℕ) : ℚ) / 100,
           message := "hello",
           locationLabel := "Paris",
           position := some ⟨[20, 10]⟩,
           createdAt := 3,
           stripeCustomerID := "cus_5" }] ∧
     (webhook noFaults ⟨[], []⟩ true evC5 3).status = 200) :=
  ⟨⟨rfl, by decide, rfl⟩,
   newPayer_creation ⟨[], []⟩ evC5 3 rfl (by decide) rfl⟩

/-- Membership in the stable descending insertion. -/
theorem mem_insertByDesc {α β : Type} [LinearOrder β] (key : α → β) (a x : α)
    (l : List α) : x ∈ insertByDesc key a l ↔ x = a ∨ x ∈ l := by
  induction l with
  | nil => simp [insertByDesc]
  | cons b bs ih =>
      by_cases h : key a < key b
      · simp only [insertByDesc, if_pos h, List.mem_cons, ih]
        tauto
      · simp only [insertByDesc, if_neg h, List.mem_cons]

/-- The stable descending insertion is a permutation of consing. -/
theorem perm_insertByDesc {α β : Type} [LinearOrder β] (key : α → β) (a : α)
    (l : List α) : (insertByDesc key a l).Perm (a :: l) := by
  induction l with
  | nil => exact List.Perm.refl _
  | cons b bs ih =>
      by_cases h : key a < key b
      · rw [insertByDesc, if_pos h]
        exact (ih.cons b).trans (List.Perm.swap a b bs)
      · rw [insertByDesc, if_neg h]

/-- The stable descending insertion preserves descending sortedness. -/
theorem pairwise_insertByDesc {α β : Type} [LinearOrder β] (key : α → β)
    (a : α) (l : List α) (h : l.Pairwise fun x y => key y ≤ key x) :
    (insertByDesc key a l).Pairwise fun x y => key y ≤ key x := by
  induction l with
  | nil => simp [insertByDesc]
  | cons b bs ih =>
      rw [List.pairwise_cons] at h
      obtain ⟨hb, hbs⟩ := h
      by_cases hab : key a < key b
      · rw [insertByDesc, if_pos hab, List.pairwise_cons]
        refine ⟨?_, ih hbs⟩
        intro y hy
        rcases (mem_insertByDesc key a y bs).mp hy with rfl | hy2
        · exact le_of_lt hab
        · exact hb y hy2
      · rw [insertByDesc, if_neg hab, List.pairwise_cons]
        refine ⟨?_, List.pairwise_cons.mpr ⟨hb, hbs⟩⟩
        intro y hy
        rcases List.mem_cons.mp hy with rfl | hy2
        · exact le_of_not_lt hab
        · exact le_trans (hb y hy2) (le_of_not_lt hab)

/-- The stable descending sort is a permutation of its input. -/
theorem sortByDesc_perm {α β : Type} [LinearOrder β] (key : α → β)
    (l : List α) : (sortByDesc key l).Perm l := by
  induction l with
  | nil => exact List.Perm.refl _
  | cons a as ih =>
      rw [sortByDesc]
      exact (perm_insertByDesc key a _).trans (ih.cons a)

/-- The stable descending sort is sorted descending by its key. -/
theorem sortByDesc_pairwise {α β : Type} [LinearOrder β] (key : α → β)
    (l : List α) :
    (sortByDesc key l).Pairwise fun x y => key y ≤ key x := by
  induction l with
  | nil => simp [sortByDesc]
  | cons a as ih =>
      rw [sortByDesc]
      exact pairwise_insertByDesc key a _ ih

/-- Ordering demanded by the claim for the amount mode: amount descending with
ties broken by payerIdentity (stripeCustomerID) ascending. Stated from the
words of the claim, for comparison with the behaviour of the code. -/
def ClaimAmountOrdered (l : List EntryV1) : Prop :=
  l.Pairwise fun x y =>
    y.amount < x.amount ∨
      (x.amount = y.amount ∧ x.stripeCustomerID < y.stripeCustomerID)

/-- Counterexample for C6: two entries with equal amounts stay in storage
order, so the two storage orders of the same pair of entries give two
different outputs; a payerIdentity tie-break would give the same output for
both, so no payerIdentity tie-break exists in the code; in particular, the
output with storage order B then A is not ordered the way the claim
demands. -/
theorem amount_sort_no_payer_tiebreak :
    getLeaderboardByAmount [⟨"B", 10, "b", "", ""⟩, ⟨"A", 10, "a", "", ""⟩] =
      [⟨"B", 10, "b", "", ""⟩, ⟨"A", 10, "a", "", ""⟩] ∧
    getLeaderboardByAmount [⟨"A", 10, "a", "", ""⟩, ⟨"B", 10, "b", "", ""⟩] =
      [⟨"A", 10, "a", "", ""⟩, ⟨"B", 10, "b", "", ""⟩] ∧
    ([⟨"B", 10, "b", "", ""⟩, ⟨"A", 10, "a", "", ""⟩] : List EntryV1) ≠
      [⟨"A", 10, "a", "", ""⟩, ⟨"B", 10, "b", "", ""⟩] ∧
    ¬ ClaimAmountOrdered
        [⟨"B", 10, "b", "", ""⟩, ⟨"A", 10, "a", "", ""⟩] := by
  refine ⟨?_, ?_, ?_, ?_⟩
  · norm_num [getLeaderboardByAmount, sortByDesc, insertByDesc]
  · norm_num [getLeaderboardByAmount, sortByDesc, insertByDesc]
  · intro h
    have := List.head_eq_of_cons_eq h
    rw [EntryV1.mk.injEq] at this
    exact absurd this.1 (by decide)
  · intro h
    rw [ClaimAmountOrdered, List.pairwise_cons] at h
    have hrel := h.1 ⟨"A", 10, "a", "", ""⟩ (List.mem_singleton.mpr rfl)
    rcases hrel with hlt | ⟨heq, hs⟩
    · exact absurd hlt (by norm_num)
    · refine absurd hs ?_
      rw [String.lt_iff_toList_lt]
      decide

/-- C6 as amended: the amount mode returns a permutation of the entries sorted
by amount descending, with ties left in storage order rather than broken by
payerIdentity; the concrete totals 50, 30, 80 for A, B, C come back as C, A,
B; the recency mode returns the rows sorted by createdAt descending, newest
first and independent of amount. -/
theorem ranking_order_amended :
    (∀ l : List EntryV1,
      (getLeaderboardByAmount l).Pairwise (fun x y => y.amount ≤ x.amount) ∧
      (getLeaderboardByAmount l).Perm l) ∧
    (getLeaderboardByAmount
        [⟨"A", 50, "a", "", ""⟩, ⟨"B", 30, "b", "", ""⟩,
         ⟨"C", 80, "c", "", ""⟩] =
      [⟨"C", 80, "c", "", ""⟩, ⟨"A", 50, "a", "", ""⟩,
       ⟨"B", 30, "b", "", ""⟩]) ∧
    (∀ l : List Entry,
      (getLeaderboard (.ok l)).Pairwise
        (fun x y => y.entry.createdAt ≤ x.entry.createdAt) ∧
      ((getLeaderboard (.ok l)).map (fun r => r.entry)).Perm l) := by
  refine ⟨fun l => ⟨?_, ?_⟩, ?_, fun l => ⟨?_, ?_⟩⟩
  · simpa [getLeaderboardByAmount] using
      sortByDesc_pairwise (fun e : EntryV1 => e.amount) l
  · simpa [getLeaderboardByAmount] using
      sortByDesc_perm (fun e : EntryV1 => e.amount) l
  · norm_num [getLeaderboardByAmount, sortByDesc, insertByDesc]
  · have h := sortByDesc_pairwise (fun e : Entry => e.createdAt) l
    simp only [getLeaderboard, List.pairwise_map]
    simpa [toRow] using h
  · have h := sortByDesc_perm (fun e : Entry => e.createdAt) l
    have hfun : ((fun r : Row => r.entry) ∘ toRow) = id := by
      funext e
      rfl
    simp only [getLeaderboard, List.map_map, hfun, List.map_id]
    exact h

/-- The findEntry lookup answers none exactly when no entry carries the key. -/
theorem findEntry_eq_none_iff (entries : List Entry) (cid : String) :
    findEntry entries cid = none ↔
      ∀ e ∈ entries, e.stripeCustomerID ≠ cid := by
  simp [findEntry, List.find?_eq_none]

/-- Membership of a key forces the findEntry lookup to answer. -/
theorem findEntry_of_mem {entries : List Entry} {e : Entry}
    (he : e ∈ entries) :
    findEntry entries e.stripeCustomerID ≠ none := fun h =>
  (findEntry_eq_none_iff entries e.stripeCustomerID).mp h e he rfl

/-- The in-place top-up save never changes the aggregation key. -/
theorem topUpdate_cid (d : EntryData) (e : Entry) :
    (topUpdate d e).stripeCustomerID = e.stripeCustomerID := by
  unfold topUpdate
  by_cases h : e.stripeCustomerID == d.stripeCustomerID <;> simp [h]

/-- addEntry preserves uniqueness of the aggregation key. -/
theorem addEntry_uniqueKeys (entries : List Entry) (d : EntryData) (now : ℕ)
    (h : uniqueKeys entries) : uniqueKeys (addEntry entries d now) := by
  unfold addEntry
  cases hf : findEntry entries d.stripeCustomerID with
  | some e =>
      unfold uniqueKeys at h ⊢
      rw [List.pairwise_map]
      exact h.imp fun hab => by simpa [topUpdate_cid] using hab
  | none =>
      unfold uniqueKeys at h ⊢
      rw [List.pairwise_append]
      refine ⟨h, by simp, ?_⟩
      intro a ha b hb
      rw [List.mem_singleton] at hb
      subst hb
      have hne := (findEntry_eq_none_iff entries d.stripeCustomerID).mp hf a ha
      simpa [newEntryOf] using hne

/-- Every top-up with a non-negative amount keeps, for every stored entry, an
entry with the same key and an amount at least as large. -/
theorem addEntry_mono (entries : List Entry) (d : EntryData) (now : ℕ)
    (hd : 0 ≤ d.amount) :
    ∀ e ∈ entries, ∃ e2 ∈ addEntry entries d now,
      e2.stripeCustomerID = e.stripeCustomerID ∧ e.amount ≤ e2.amount := by
  intro e he
  unfold addEntry
  cases hf : findEntry entries d.stripeCustomerID with
  | some x =>
      refine ⟨topUpdate d e, List.mem_map_of_mem _ he, topUpdate_cid d e, ?_⟩
      unfold topUpdate
      by_cases h : e.stripeCustomerID == d.stripeCustomerID
      · simp only [h, if_pos]
        exact le_add_of_nonneg_right hd
      · simp [h]
  | none =>
      exact ⟨e, List.mem_append_left _ he, rfl, le_refl _⟩

/-- An entry of the new ledger whose key was absent before can only be the
entry just created, so it carries exactly the incoming amount and key. -/
theorem addEntry_new_amount (entries : List Entry) (d : EntryData) (now : ℕ) :
    ∀ e2 ∈ addEntry entries d now,
      findEntry entries e2.stripeCustomerID = none →
      e2.stripeCustomerID = d.stripeCustomerID ∧ e2.amount = d.amount := by
  intro e2 he2 hnone
  unfold addEntry at he2
  cases hf : findEntry entries d.stripeCustomerID with
  | some x =>
      rw [hf] at he2
      obtain ⟨a, ha, rfl⟩ := List.mem_map.mp he2
      rw [topUpdate_cid] at hnone
      exact absurd hnone (findEntry_of_mem ha)
  | none =>
      rw [hf] at he2
      rcases List.mem_append.mp he2 with hl | hr
      · exact absurd hnone (findEntry_of_mem hl)
      · rw [List.mem_singleton] at hr
        subst hr
        exact ⟨rfl, rfl⟩

/-- Every webhook call either leaves the entries unchanged or runs addEntry on
the session data. -/
theorem webhook_entries_cases (f : Faults) (db : DB) (sigOk : Bool)
    (ev : StripeEvent) (now : ℕ) :
    (webhook f db sigOk ev now).db.entries = db.entries ∨
    (webhook f db sigOk ev now).db.entries =
      addEntry db.entries (entryDataOfSession ev.session) now := by
  unfold webhook
  cases sigOk <;>
    by_cases hdf : f.dedupLookupFault <;>
      by_cases hc : ev.id ∈ db.processed <;>
        by_cases ht : ev.type = "checkout.session.completed" <;>
          by_cases ha : f.addEntryFault <;>
            simp [hdf, hc, ht, ha]

/-- C4: ledger invariants. At every reachable state the aggregation key is
unique across entries; every webhook call keeps, for every stored entry, an
entry with the same key whose amount did not decrease; and an entry whose key
was absent before the call carries the key of the event payer and exactly the
amount of the event. -/
theorem ledger_invariants :
    (∀ db : DB, Reach db → uniqueKeys db.entries) ∧
    (∀ (f : Faults) (db : DB) (sigOk : Bool) (ev : StripeEvent) (now : ℕ),
      ∀ e ∈ db.entries, ∃ e2 ∈ (webhook f db sigOk ev now).db.entries,
        e2.stripeCustomerID = e.stripeCustomerID ∧ e.amount ≤ e2.amount) ∧
    (∀ (f : Faults) (db : DB) (sigOk : Bool) (ev : StripeEvent) (now : ℕ),
      ∀ e2 ∈ (webhook f db sigOk ev now).db.entries,
        findEntry db.entries e2.stripeCustomerID = none →
        e2.stripeCustomerID = ev.session.metadata.stripeCustomerID ∧
        e2.amount = (ev.session.amount_total : ℚ) / 100) := by
  refine ⟨?_, ?_, ?_⟩
  · intro db h
    induction h with
    | init => simp [uniqueKeys]
    | step f sigOk ev now hdb ih =>
        rcases webhook_entries_cases f _ sigOk ev now with hcase | hcase
        · rw [hcase]
          exact ih
        · rw [hcase]
          exact addEntry_uniqueKeys _ _ _ ih
  · intro f db sigOk ev now e he
    rcases webhook_entries_cases f db sigOk ev now with hcase | hcase
    · rw [hcase]
      exact ⟨e, he, rfl, le_refl _⟩
    · rw [hcase]
      refine addEntry_mono _ _ _ ?_ e he
      simp only [entryDataOfSession]
      positivity
  · intro f db sigOk ev now e2 he2 hnone
    rcases webhook_entries_cases f db sigOk ev now with hcase | hcase
    · rw [hcase] at he2
      exact absurd hnone (findEntry_of_mem he2)
    · rw [hcase] at he2
      exact addEntry_new_amount _ _ _ e2 he2 hnone

/-- Witness for C4: key uniqueness at the initial state reached by Reach.init,
and monotonicity of a concrete webhook call over a one-entry ledger. -/
theorem ledger_invariants_witness :
    uniqueKeys ((⟨[], []⟩ : DB).entries) ∧
    (∀ e ∈ (⟨[⟨"Bob", 10, "", "P", none, 0, "cus_5"⟩], []⟩ : DB).entries,
      ∃ e2 ∈ (webhook noFaults ⟨[⟨"Bob", 10, "", "P", none, 0, "cus_5"⟩], []⟩
          true evC5 3).db.entries,
        e2.stripeCustomerID = e.stripeCustomerID ∧ e.amount ≤ e2.amount) :=
  ⟨ledger_invariants.1 ⟨[], []⟩ Reach.init,
   fun e he =>
     ledger_invariants.2.1 noFaults ⟨[⟨"Bob", 10, "", "P", none, 0, "cus_5"⟩],
       []⟩ true evC5 3 e he⟩

/-- Concrete stored entry used to evaluate the top-up path. -/
def e0C8 : Entry := ⟨"Old", 10, "oldmsg", "X", some ⟨[1, 2]⟩, 0, "cus_1"⟩

/-- Concrete incoming contribution data for the same payer with fresh values
for every display field. -/
def d0C8 : EntryData := ⟨"New", 5, "cus_1", "Y", "hi", some ⟨[3, 4]⟩⟩

/-- Counterexample for C8: on a top-up the code overwrites only message; the
incoming name, locationLabel and position are provided and different from the
stored ones, yet the stored entry keeps its old name, locationLabel and
position. -/
theorem topUp_keeps_display_metadata :
    addEntry [e0C8] d0C8 7 =
      [⟨"Old", 15, "hi", "X", some ⟨[1, 2]⟩, 0, "cus_1"⟩] ∧
    d0C8.name ≠ "Old" ∧ d0C8.locationLabel ≠ "X" ∧
    d0C8.position ≠ some ⟨[1, 2]⟩ := by
  refine ⟨?_, by decide, by decide, by decide⟩
  simp [addEntry, findEntry, topUpdate, e0C8, d0C8]
  norm_num

/-- C8 as amended: on a top-up no entry is created or deleted and, for every
stored entry, name, locationLabel, position, createdAt and the key are kept
unchanged; the matched entry gets its amount incremented by the incoming
amount and its message overwritten exactly when the incoming message is
non-empty; unmatched entries are untouched. -/
theorem topUp_metadata_amended (entries : List Entry) (d : EntryData)
    (now : ℕ) (hsome : (findEntry entries d.stripeCustomerID).isSome = true) :
    (addEntry entries d now).length = entries.length ∧
    ∀ e ∈ entries, ∃ e2 ∈ addEntry entries d now,
      e2.name = e.name ∧ e2.locationLabel = e.locationLabel ∧
      e2.position = e.position ∧ e2.createdAt = e.createdAt ∧
      e2.stripeCustomerID = e.stripeCustomerID ∧
      (e.stripeCustomerID = d.stripeCustomerID →
        e2.amount = e.amount + d.amount ∧
        e2.message = if d.message ≠ "" then d.message else e.message) ∧
      (e.stripeCustomerID ≠ d.stripeCustomerID → e2 = e) := by
  obtain ⟨x, hx⟩ := Option.isSome_iff_exists.mp hsome
  constructor
  · unfold addEntry
    rw [hx]
    exact List.length_map _ _
  · intro e he
    unfold addEntry
    rw [hx]
    refine ⟨topUpdate d e, List.mem_map_of_mem _ he, ?_⟩
    unfold topUpdate
    by_cases h : e.stripeCustomerID = d.stripeCustomerID
    · simp [h]
    · simp [h]

/-- Witness for C8 at the concrete stored entry and incoming data. -/
theorem topUp_metadata_amended_witness :
    ((findEntry [e0C8] d0C8.stripeCustomerID).isSome = true) ∧
    ((addEntry [e0C8] d0C8 7).length = [e0C8].length ∧
     ∀ e ∈ [e0C8], ∃ e2 ∈ addEntry [e0C8] d0C8 7,
       e2.name = e.name ∧ e2.locationLabel = e.locationLabel ∧
       e2.position = e.position ∧ e2.createdAt = e.createdAt ∧
       e2.stripeCustomerID = e.stripeCustomerID ∧
       (e.stripeCustomerID = d0C8.stripeCustomerID →
         e2.amount = e.amount + d0C8.amount ∧
         e2.message = if d0C8.message ≠ "" then d0C8.message else e.message) ∧
       (e.stripeCustomerID ≠ d0C8.stripeCustomerID → e2 = e)) :=
  ⟨by decide, topUp_metadata_amended [e0C8] d0C8 7 (by decide)⟩

/-- Concrete database already holding an entry for the payer, with stored
coordinates [1, 2]. -/
def dbC10 : DB := ⟨[⟨"Old", 10, "", "X", some ⟨[1, 2]⟩, 0, "cus_1"⟩], []⟩

/-- Concrete top-up event for the same payer submitting lat 30 and lng 40. -/
def evC10 : StripeEvent :=
  ⟨"evt_2", "checkout.session.completed",
    ⟨1000, ⟨"Old", "cus_1", "X", none, some 30, some 40⟩⟩⟩

/-- Counterexample for C10: the event carries lat 30 and lng 40, but because
the payer already has an entry the top-up path never writes position, so the
read API returns the previously stored lat 2 and lng 1 instead of the values
submitted with the event. -/
theorem coords_roundtrip_fails_on_topup :
    evC10.session.metadata.lat = some 30 ∧
    evC10.session.metadata.lng = some 40 ∧
    (getLeaderboard
        (.ok (webhook noFaults dbC10 true evC10 9).db.entries)).map
      (fun r => (r.lat, r.lng)) = [(some 2, some 1)] ∧
    ((some (2 : ℚ), some (1 : ℚ)) ≠ (some (30 : ℚ), some (40 : ℚ))) := by
  refine ⟨rfl, rfl, ?_, by decide⟩
  simp [webhook, noFaults, dbC10, evC10, addEntry, findEntry, topUpdate,
    entryDataOfSession, getLeaderboard, sortByDesc, insertByDesc, toRow]

/-- C10 as amended: for an event that creates a new entry (payer previously
unseen), the webhook stores position.coordinates as [lng, lat] and the read
API maps them back, so the returned lat and lng equal the submitted values
when both are present, and are undefined when lat or lng is absent; on a
top-up the previously stored coordinates are retained instead. -/
theorem coords_roundtrip_new_entry (db : DB) (ev : StripeEvent) (now : ℕ)
    (htype : ev.type = "checkout.session.completed")
    (hfresh : ev.id ∉ db.processed)
    (hnew : findEntry db.entries ev.session.metadata.stripeCustomerID = none) :
    ∃ e, (webhook noFaults db true ev now).db.entries = db.entries ++ [e] ∧
      (∀ la ln, ev.session.metadata.lat = some la →
        ev.session.metadata.lng = some ln →
        (toRow e).lat = some la ∧ (toRow e).lng = some ln) ∧
      ((ev.session.metadata.lat = none ∨ ev.session.metadata.lng = none) →
        (toRow e).lat = none ∧ (toRow e).lng = none) := by
  refine ⟨newEntryOf (entryDataOfSession ev.session) now,
    webhook_fresh_entries db ev now htype hfresh hnew, ?_, ?_⟩
  · intro la ln hla hln
    simp [toRow, newEntryOf, entryDataOfSession, hla, hln]
  · intro habs
    rcases habs with hla | hln
    · simp [toRow, newEntryOf, entryDataOfSession, hla]
    · cases hl : ev.session.metadata.lat <;>
        simp [toRow, newEntryOf, entryDataOfSession, hl, hln]

/-- Witness for C10: the concrete fresh payer event with lat 10 and lng 20
delivered to the empty database. -/
theorem coords_roundtrip_new_entry_witness :
    (evC5.type = "checkout.session.completed" ∧
     evC5.id ∉ (⟨[], []⟩ : DB).processed ∧
     findEntry (⟨[], []⟩ : DB).entries evC5.session.metadata.stripeCustomerID
       = none) ∧
    (∃ e, (webhook noFaults ⟨[], []⟩ true evC5 4).db.entries = [] ++ [e] ∧
      (∀ la ln, evC5.session.metadata.lat = some la →
        evC5.session.metadata.lng = some ln →
        (toRow e).lat = some la ∧ (toRow e).lng = some ln) ∧
      ((evC5.session.metadata.lat = none ∨
          evC5.session.metadata.lng = none) →
        (toRow e).lat = none ∧ (toRow e).lng = none)) :=
  ⟨⟨rfl, by decide, rfl⟩,
   coords_roundtrip_new_entry ⟨[], []⟩ evC5 4 rfl (by decide) rfl⟩

end Richlist
